import Mathlib

/-!
Shallow embedding of the conversion-job subsystem of the backend server
(`src/server.js`, together with the variant server in `src/unnamed/part_000`).

Modelling choices:
* Strings are Lean `String`s; the transcoder's progress stream is handled
  as lists of characters so that the line-oriented parsing of the source
  can be stated and proved about directly.
* The JavaScript number produced by `parseInt`/`Math.round`/`Math.min` in the
  progress callback is modelled as `Option Int`, where `none` models `NaN`
  (`parseInt` of a digit-free string).  The arithmetic is exact integer
  arithmetic; `Math.round` is floor of `x + 1/2`, which is how V8 rounds.
* The mutable runtime state (the `JOBS` table, the files on disk, the armed
  cleanup timers) is an explicit `ServerState` record; each request handler
  and callback of the source becomes a state-passing function.
* External effects (the yt-dlp fetch succeeding or failing, the download
  stream succeeding or failing) are Boolean parameters of the corresponding
  handler, since the source only branches on them.
-/

namespace Backend

/-- VALID_AUDIO_FORMATS (server.js line 30 / part_000 line 17). -/
def VALID_AUDIO_FORMATS : List String := ["mp3", "aac", "m4a", "opus", "wav", "flac"]

/-- VALID_VIDEO_FORMATS (server.js line 31 / part_000 line 18). -/
def VALID_VIDEO_FORMATS : List String := ["mp4", "mkv", "webm"]

/-- A registry entry `JOBS[jobId] = { progress, path, done, ext, name }`
(server.js line 131).  `progress` is `Option Int` with `none` modelling the
JavaScript `NaN` that `parseInt` can produce on a malformed progress line. -/
structure Job where
  progress : Option Int
  path : String
  done : Bool
  ext : String
  name : String
  deriving DecidableEq

/-- The data captured by one armed `setTimeout` cleanup callback
(server.js lines 133-138): the job id and the two temp paths it closes over. -/
structure TimerInfo where
  jobId : String
  outFile : String
  tempInput : String
  deriving DecidableEq

/-- The mutable state of the server: the `JOBS` table (association list keyed
by job id), the set of files present on disk, and the armed cleanup timers. -/
structure ServerState where
  jobs : List (String × Job)
  files : List String
  timers : List TimerInfo
  deriving DecidableEq

/-- Membership test on a list of strings; models `Array.prototype.includes`
on the format allow-lists and `fs.existsSync` on our explicit file list. -/
def containsStr : List String → String → Bool
  | [], _ => false
  | x :: xs, p => if x = p then true else containsStr xs p

/-- Removal of a path from the file list; models `fs.unlinkSync`/`fs.unlink`
(on a real file system a path occurs at most once, so removing every
occurrence is the same operation). -/
def removeFile : List String → String → List String
  | [], _ => []
  | x :: xs, p => if x = p then removeFile xs p else x :: removeFile xs p

/-- Lookup `JOBS[id]`. -/
def lookupJob : List (String × Job) → String → Option Job
  | [], _ => none
  | (k, j) :: rest, key => if k = key then some j else lookupJob rest key

/-- Deletion `delete JOBS[id]`. -/
def eraseKey : List (String × Job) → String → List (String × Job)
  | [], _ => []
  | (k, j) :: rest, key =>
      if k = key then eraseKey rest key else (k, j) :: eraseKey rest key

/-- In-place mutation of an entry, as in `JOBS[jobId].progress = 100`. -/
def updateJob : List (String × Job) → String → (Job → Job) → List (String × Job)
  | [], _, _ => []
  | (k, j) :: rest, key, f =>
      if k = key then (k, f j) :: updateJob rest key f
      else (k, j) :: updateJob rest key f

/-- One character of `s.replace(/[^a-z0-9]/gi, '_').toLowerCase()`
(server.js lines 126 and 186): an ASCII alphanumeric character is
case-folded, every other character becomes a single underscore. -/
def sanitizeChar (c : Char) : Char :=
  if c.isAlphanum then c.toLower else '_'

/-- The sanitizer `replace(/[^a-z0-9]/gi, '_').toLowerCase()` applied to a
whole string, character by character (the `g` flag replaces each matching
character individually). -/
def jsSanitize (s : String) : String :=
  String.mk (s.data.map sanitizeChar)

/-- JavaScript `a || b` on strings: the empty string is falsy
(`job.ext || 'mp4'`, server.js line 187). -/
def jsOr (s dflt : String) : String := if s = "" then dflt else s

/-- `path.join(dir, file)` for our flat temp-file names. -/
def pathJoin (dir file : String) : String := dir ++ "/" ++ file

/-- Placeholder for the server directory `__dirname`; paths are only ever
compared for equality, so its concrete value is irrelevant. -/
def DIRNAME : String := "__dirname"

/-- The `formatAliases` table lookup with fallback,
`formatAliases[inputFormat] || inputFormat` (server.js lines 111-117). -/
def formatAliasResolve (f : String) : String :=
  if f = "360p" then "mp4"
  else if f = "480p" then "mp4"
  else if f = "720p" then "mp4"
  else if f = "1080p" then "mp4"
  else f

/-- `type === 'audio' ? VALID_AUDIO_FORMATS : VALID_VIDEO_FORMATS`
(server.js line 118). -/
def formatListFor (type : String) : List String :=
  if type = "audio" then VALID_AUDIO_FORMATS else VALID_VIDEO_FORMATS

/-- The body of `POST /api/convert/start` (server.js line 110). -/
structure StartRequest where
  id : String
  format : String
  type : String
  deriving DecidableEq

/-- Outcome of `POST /api/convert/start`: 400 for an unsupported format,
500 when the yt-dlp fetch fails, otherwise the `{ jobId }` response. -/
inductive StartResult where
  | invalidFormat
  | fetchFailed
  | started (jobId : String)
  deriving DecidableEq

/-- The handler `app.post('/api/convert/start')` of server.js
(lines 108-178), up to and including the fetch step.  `jobId` stands for
the freshly generated uuid and `fetchOk` for whether the external yt-dlp
invocation succeeds.  Note the source creates the `JOBS` entry (line 131)
and arms the cleanup timer (line 133) before the `try` block that runs the
fetch; on a fetch failure the catch clause only sends the 500 response. -/
def convertStart (st : ServerState) (req : StartRequest) (jobId : String)
    (fetchOk : Bool) : StartResult × ServerState :=
  let format := formatAliasResolve req.format
  if containsStr (formatListFor req.type) format then
    let outputExt := if req.type = "audio" then format else "mp4"
    let baseName := jsSanitize ("yt-" ++ req.id)
    let tempInput := pathJoin DIRNAME ("temp_" ++ jobId ++ "_input.mkv")
    let outFile := pathJoin DIRNAME ("temp_" ++ jobId ++ "." ++ outputExt)
    let filename := baseName ++ "." ++ outputExt
    let jobs1 := (jobId,
      { progress := some 0, path := outFile, done := false,
        ext := outputExt, name := filename : Job }) :: st.jobs
    let timers1 :=
      ({ jobId := jobId, outFile := outFile, tempInput := tempInput : TimerInfo })
        :: st.timers
    if fetchOk then
      (.started jobId, { jobs := jobs1, files := tempInput :: st.files, timers := timers1 })
    else
      (.fetchFailed, { jobs := jobs1, files := st.files, timers := timers1 })
  else (.invalidFormat, st)

/-- The same handler in the variant server `src/unnamed/part_000`
(lines 81-164).  There the `setTimeout` cleanup (line 152) sits inside the
`try` block after the fetch and the spawn, so a failed fetch jumps to the
catch clause before any timer is armed, while the `JOBS` entry (line 103)
was already created before the `try`. -/
def convertStartV2 (st : ServerState) (req : StartRequest) (jobId : String)
    (fetchOk : Bool) : StartResult × ServerState :=
  let format := formatAliasResolve req.format
  if containsStr (formatListFor req.type) format then
    let outputExt := if req.type = "audio" then format else "mp4"
    let baseName := jsSanitize ("yt-" ++ req.id)
    let tempInput := pathJoin DIRNAME ("temp_" ++ jobId ++ "_input.mkv")
    let outFile := pathJoin DIRNAME ("temp_" ++ jobId ++ "." ++ outputExt)
    let filename := baseName ++ "." ++ outputExt
    let jobs1 := (jobId,
      { progress := some 0, path := outFile, done := false,
        ext := outputExt, name := filename : Job }) :: st.jobs
    if fetchOk then
      (.started jobId,
        { jobs := jobs1, files := tempInput :: st.files,
          timers :=
            ({ jobId := jobId, outFile := outFile, tempInput := tempInput : TimerInfo })
              :: st.timers })
    else
      (.fetchFailed, { jobs := jobs1, files := st.files, timers := st.timers })
  else (.invalidFormat, st)

/-- The `setTimeout` cleanup callback firing (server.js lines 133-138):
delete the output file if present, delete the intermediate input file if
present, `delete JOBS[jobId]` — unconditionally on the job's state. -/
def fireTimer (st : ServerState) (t : TimerInfo) : ServerState :=
  { st with
    files := removeFile (removeFile st.files t.outFile) t.tempInput,
    jobs := eraseKey st.jobs t.jobId }

/-- Exact-arithmetic model of `Math.round(num / den)` for `den > 0`:
JavaScript rounds half toward positive infinity, i.e. `floor(x + 1/2)`. -/
def jsRoundDiv (num den : Int) : Int :=
  Int.fdiv (2 * num + den) (2 * den)

/-- The stored estimate `Math.min(100, Math.round((ms / 60000) * 100))`
(server.js line 158), lifted over the possible `NaN` from `parseInt`:
`Math.round` and `Math.min` both propagate `NaN`. -/
def progressFromMs (p : Option Int) : Option Int :=
  p.map (fun ms => min 100 (jsRoundDiv (ms * 100) 60000))

/-- `String.prototype.startsWith` on character lists. -/
def isPrefixOfCL : List Char → List Char → Bool
  | [], _ => true
  | _ :: _, [] => false
  | p :: ps, c :: cs => p == c && isPrefixOfCL ps cs

/-- Worker for `splitChar`. -/
def splitCharAux (sep : Char) : List Char → List Char → List (List Char)
  | [], acc => [acc.reverse]
  | c :: cs, acc =>
      if c = sep then acc.reverse :: splitCharAux sep cs []
      else splitCharAux sep cs (c :: acc)

/-- `String.prototype.split(sep)` for a single-character separator, as in
`line.split('=')` (server.js line 157). -/
def splitChar (sep : Char) (cs : List Char) : List (List Char) :=
  splitCharAux sep cs []

/-- Strip one trailing carriage return, the `\r?` part of the
`split(/\r?\n/)` chunk splitting (server.js line 154). -/
def dropTrailingCR (cs : List Char) : List Char :=
  if cs.getLast? = some '\x0d' then cs.dropLast else cs

/-- `chunk.toString().split(/\r?\n/)` (server.js line 154). -/
def splitLines (cs : List Char) : List (List Char) :=
  (splitChar '\x0a' cs).map dropTrailingCR

/-- Value of a decimal digit string. -/
def digitsToNat (ds : List Char) : Nat :=
  ds.foldl (fun a c => 10 * a + (c.toNat - 48)) 0

/-- Longest leading run of decimal digits, `none` when there is none. -/
def parseNatHead (cs : List Char) : Option Nat :=
  let ds := cs.takeWhile Char.isDigit
  if ds.isEmpty then none else some (digitsToNat ds)

/-- `parseInt(s)` on the strings this program feeds it (an optional sign
followed by decimal digits; the transcoder emits decimal integers, so the
hexadecimal auto-detection of `parseInt` never triggers): the longest
numeric head, or `none` modelling `NaN` when no digits lead. -/
def jsParseInt (cs : List Char) : Option Int :=
  match cs with
  | '-' :: rest => (parseNatHead rest).map (fun n => -(n : Int))
  | '+' :: rest => (parseNatHead rest).map (fun n => (n : Int))
  | _ => (parseNatHead cs).map (fun n => (n : Int))

/-- The marker `'out_time_ms='` (server.js line 156). -/
def OUT_TIME_KEY : List Char := "out_time_ms=".data

/-- The marker `'progress=end'` (server.js line 160). -/
def PROGRESS_END_KEY : List Char := "progress=end".data

/-- One iteration of the `lines.forEach(line => ...)` body in the progress
handler (server.js lines 155-164): an `out_time_ms=` line stores the
clamped estimate, a `progress=end` line forces 100 and `done`. -/
def handleLine (j : Job) (line : List Char) : Job :=
  let j1 :=
    if isPrefixOfCL OUT_TIME_KEY line then
      { j with progress := progressFromMs (jsParseInt ((splitChar '=' line).getD 1 [])) }
    else j
  if isPrefixOfCL PROGRESS_END_KEY line then
    { j1 with progress := some 100, done := true }
  else j1

/-- A whole list of progress lines processed in order. -/
def processLines (j : Job) (ls : List (List Char)) : Job :=
  ls.foldl handleLine j

/-- One `ffmpeg.stdio[2].on('data')` callback invocation
(server.js lines 153-165): split the chunk into lines and process each. -/
def handleChunk (j : Job) (chunk : List Char) : Job :=
  processLines j (splitLines chunk)

/-- A whole sequence of stderr chunks processed in order. -/
def processChunks (j : Job) (chunks : List (List Char)) : Job :=
  chunks.foldl handleChunk j

/-- The `ffmpeg.on('exit')` callback (server.js lines 167-171): force the
entry to 100/done and delete the intermediate input file.  The callback
takes no exit-code argument, so the update is unconditional on how the
process ended.  When the entry was already evicted the real callback throws
a `TypeError` before reaching the unlink; that case leaves the state as is. -/
def ffmpegOnExit (st : ServerState) (jobId tempInput : String) : ServerState :=
  match lookupJob st.jobs jobId with
  | none => st
  | some _ =>
      { st with
        jobs := updateJob st.jobs jobId
          (fun j => { j with progress := some 100, done := true }),
        files := removeFile st.files tempInput }

/-- The argument vector handed to `spawn('ffmpeg', ...)`
(server.js lines 143-145), keyed by the requested media type. -/
def ffmpegArgs (type format tempInput outFile : String) : List String :=
  if type = "audio" then
    ["-i", tempInput, "-f", format, "-vn", "-ab", "192k",
     "-progress", "pipe:2", outFile]
  else
    ["-i", tempInput, "-f", "mp4", "-c:v", "libx264", "-preset", "fast",
     "-crf", "23", "-c:a", "aac", "-b:a", "192k", "-movflags", "+faststart",
     "-progress", "pipe:2", outFile]

/-- `job.progress >= 100` as JavaScript evaluates it: `NaN >= 100` is false. -/
def jsGe100 : Option Int → Bool
  | none => false
  | some v => decide (100 ≤ v)

/-- Response of `GET /api/progress` (server.js lines 229-237). -/
inductive ProgressResult where
  | notFound
  | ok (progress : Option Int) (ready : Bool)
  deriving DecidableEq

/-- The handler `app.get('/api/progress')` (server.js lines 229-237):
404 for an unknown id, otherwise `{ progress, ready }` with
`ready = progress >= 100 && done && existsSync(path)`. -/
def apiProgress (st : ServerState) (id : String) : ProgressResult :=
  match lookupJob st.jobs id with
  | none => .notFound
  | some job =>
      .ok job.progress
        (jsGe100 job.progress && job.done && containsStr st.files job.path)

/-- The `Content-Disposition` file name computed by the download handler
(server.js lines 185-187): underscores of the stored name become spaces,
the result is re-sanitized, and the stored extension (defaulted to mp4 for
a falsy one) is appended.  `job.name` is always a string in the registry,
so the `?? converted_id` fallback of the source is never taken. -/
def safeFilename (job : Job) : String :=
  let rawTitle := String.mk (job.name.data.map (fun c => if c = '_' then ' ' else c))
  let safeTitle := jsSanitize rawTitle
  safeTitle ++ "." ++ jsOr job.ext "mp4"

/-- Outcome of `GET /api/convert/download`: 404 when the job is unknown or
its file is gone, otherwise the streamed attachment (or a failed stream —
the `stream.on('error')` path, which still runs the `close` cleanup). -/
inductive DownloadResult where
  | notReady
  | delivered (filename : String)
  | streamFailed (filename : String)
  deriving DecidableEq

/-- The handler `app.get('/api/convert/download')` (server.js lines 180-202),
including the effect of the `stream.on('close')` callback, which fires after
the transfer whether it succeeded (`streamOk = true`) or errored out: it
unlinks the output file and deletes the registry entry in both cases. -/
def apiDownload (st : ServerState) (id : String) (streamOk : Bool) :
    DownloadResult × ServerState :=
  match lookupJob st.jobs id with
  | none => (.notReady, st)
  | some job =>
      if containsStr st.files job.path then
        let filename := safeFilename job
        let st2 : ServerState :=
          { st with files := removeFile st.files job.path,
                    jobs := eraseKey st.jobs id }
        ((if streamOk then .delivered filename else .streamFailed filename), st2)
      else (.notReady, st)

/-- Modelled from the spec: the percent estimate as the spec sentence for
claim C2 words it — "the reported value divided by 60,000 ... and clamped to
[0, 100]", with the rounding taken from the spec's own worked example
`min(100, round(30000000/60000))`.  This is the comparison definition for a
refinement check against `progressFromMs`; it is not part of the code model. -/
def specProgressEstimate (v : Int) : Int :=
  min 100 (max 0 (jsRoundDiv v 60000))

/-- Whether a character list contains two adjacent underscores (the
separator character of the sanitizer). -/
def hasAdjacentUnderscore : List Char → Bool
  | [] => false
  | [_] => false
  | a :: b :: rest =>
      (a == '_' && b == '_') || hasAdjacentUnderscore (b :: rest)

/-- Empty initial server state. -/
def st0 : ServerState := { jobs := [], files := [], timers := [] }

/-- A well-formed conversion request used to instantiate theorems. -/
def req1 : StartRequest := { id := "abc", format := "mp3", type := "audio" }

/-- A request whose content id contains adjacent punctuation. -/
def reqBang : StartRequest := { id := "a!!b", format := "mp3", type := "audio" }

/-- A request with a format unsupported for its type. -/
def reqBad : StartRequest := { id := "x", format := "ogg", type := "audio" }

/-- A video request asking for the mkv container. -/
def reqMkv : StartRequest := { id := "vid", format := "mkv", type := "video" }

/-- A freshly created job, as `convertStart` stores it. -/
def sampleJob : Job :=
  { progress := some 0, path := "p", done := false, ext := "mp3", name := "n" }

/-- A finished job whose artifact is on disk. -/
def readyJob : Job :=
  { progress := some 100, path := "out", done := true, ext := "mp3", name := "n" }

/-- A state holding `readyJob` with its artifact present. -/
def readySt : ServerState :=
  { jobs := [("j", readyJob)], files := ["out"], timers := [] }

/-- The progress line `out_time_ms=6000`. -/
def lineOutTime6000 : List Char := "out_time_ms=6000".data

/-- The progress line `out_time_ms=-60000`. -/
def lineOutTimeNeg : List Char := "out_time_ms=-60000".data

/-- The progress line `out_time_ms=30000000` of the spec's worked example. -/
def lineOutTime30M : List Char := "out_time_ms=30000000".data

/-- A concrete armed timer, used to instantiate theorems. -/
def t2sample : TimerInfo :=
  { jobId := "j", outFile := "out", tempInput := "tmpIn" }

/-- The state reached by starting `reqBang` as job `j9` (fetch succeeded)
and the transcoder having produced the output artifact on disk. -/
def stC9 : ServerState :=
  let s1 := (convertStart st0 reqBang "j9" true).2
  { s1 with files := pathJoin DIRNAME "temp_j9.mp3" :: s1.files }

/-! ### Shared lemmas about the registry and file-list operations -/

theorem lookupJob_eraseKey (l : List (String × Job)) (k : String) :
    lookupJob (eraseKey l k) k = none := by
  induction l with
  | nil => rfl
  | cons p rest ih =>
      obtain ⟨k', j⟩ := p
      by_cases h : k' = k
      · simp [eraseKey, h, ih]
      · simp [eraseKey, lookupJob, h, ih]

theorem lookupJob_updateJob (l : List (String × Job)) (k : String) (f : Job → Job) :
    lookupJob (updateJob l k f) k = (lookupJob l k).map f := by
  induction l with
  | nil => rfl
  | cons p rest ih =>
      obtain ⟨k', j⟩ := p
      by_cases h : k' = k <;> simp [updateJob, lookupJob, h, ih]

theorem containsStr_removeFile_self (fs : List String) (p : String) :
    containsStr (removeFile fs p) p = false := by
  induction fs with
  | nil => rfl
  | cons x xs ih =>
      by_cases h : x = p <;> simp [removeFile, containsStr, h, ih]

theorem containsStr_of_removeFile (fs : List String) (p q : String)
    (h : containsStr (removeFile fs q) p = true) : containsStr fs p = true := by
  induction fs with
  | nil => exact h
  | cons x xs ih =>
      by_cases hx : x = q
      · rw [show removeFile (x :: xs) q = removeFile xs q by simp [removeFile, hx]] at h
        have hxs := ih h
        by_cases hp : x = p <;> simp [containsStr, hp, hxs]
      · rw [show removeFile (x :: xs) q = x :: removeFile xs q by simp [removeFile, hx]] at h
        by_cases hp : x = p
        · simp [containsStr, hp]
        · rw [show containsStr (x :: removeFile xs q) p = containsStr (removeFile xs q) p
              by simp [containsStr, hp]] at h
          simp [containsStr, hp, ih h]

theorem containsStr_removeFile_removeFile (fs : List String) (p q : String) :
    containsStr (removeFile (removeFile fs p) q) p = false := by
  cases hc : containsStr (removeFile (removeFile fs p) q) p
  · rfl
  · have := containsStr_of_removeFile (removeFile fs p) p q hc
    rw [containsStr_removeFile_self fs p] at this
    exact this.symm

/-! ### Shared lemmas about the progress-line handler -/

theorem out_key_not_end_key (cs : List Char)
    (h : isPrefixOfCL OUT_TIME_KEY cs = true) :
    isPrefixOfCL PROGRESS_END_KEY cs = false := by
  cases cs with
  | nil =>
      rw [show OUT_TIME_KEY = 'o' :: "ut_time_ms=".data from rfl] at h
      simp [isPrefixOfCL] at h
  | cons c rest =>
      rw [show OUT_TIME_KEY = 'o' :: "ut_time_ms=".data from rfl] at h
      rw [show PROGRESS_END_KEY = 'p' :: "rogress=end".data from rfl]
      simp only [isPrefixOfCL, Bool.and_eq_true, beq_iff_eq] at h
      obtain ⟨h1, -⟩ := h
      subst h1
      simp [isPrefixOfCL]

/-- Invariant: a job's progress, when it is a number, is at most 100. -/
def progressAtMost100 (j : Job) : Prop :=
  ∀ v, j.progress = some v → v ≤ 100

theorem handleLine_progressAtMost100 (j : Job) (line : List Char)
    (h : progressAtMost100 j) : progressAtMost100 (handleLine j line) := by
  intro v hv
  unfold handleLine at hv
  by_cases h2 : isPrefixOfCL PROGRESS_END_KEY line
  · simp only [h2, if_true] at hv
    simp at hv
    omega
  · simp only [h2, if_false, Bool.false_eq_true] at hv
    by_cases h1 : isPrefixOfCL OUT_TIME_KEY line
    · simp only [h1, if_true] at hv
      simp [progressFromMs] at hv
      obtain ⟨ms, -, hmin⟩ := hv
      subst hmin
      exact min_le_left _ _
    · simp only [h1, if_false, Bool.false_eq_true] at hv
      exact h v hv

theorem processLines_progressAtMost100 (j : Job) (ls : List (List Char))
    (h : progressAtMost100 j) : progressAtMost100 (processLines j ls) := by
  induction ls generalizing j with
  | nil => exact h
  | cons l rest ih => exact ih _ (handleLine_progressAtMost100 j l h)

theorem processChunks_progressAtMost100 (j : Job) (chunks : List (List Char))
    (h : progressAtMost100 j) : progressAtMost100 (processChunks j chunks) := by
  induction chunks generalizing j with
  | nil => exact h
  | cons c rest ih => exact ih _ (processLines_progressAtMost100 j _ h)

/-! ### Claim C2 -/

/-- C2 counterexample: for the progress line `out_time_ms=6000` the code
stores `min(100, round((6000/60000)*100)) = 10`, while the claim's formula
— the reported value divided by 60,000 and clamped to `[0, 100]` — gives 0.
The stored estimate therefore does not equal the claimed formula on every
line. -/
theorem c2_counterexample :
    (handleLine sampleJob lineOutTime6000).progress = some 10 ∧
    specProgressEstimate 6000 = 0 ∧ (10 : Int) ≠ 0 := by decide

/-- C2 (amended): for every progress line of the form `out_time_ms=<v>`
whose payload parses to the integer `ms`, the stored percent estimate is
`min(100, round((ms/60000)*100))`, i.e. `ms/60000` is treated as a fraction
of the 60-second baseline and scaled to a percentage; no lower clamp is
applied.  In particular `out_time_ms=30000000` stores 100. -/
theorem c2_estimator_formula (j : Job) (line : List Char) (ms : Int)
    (h1 : isPrefixOfCL OUT_TIME_KEY line = true)
    (h2 : jsParseInt ((splitChar '=' line).getD 1 []) = some ms) :
    (handleLine j line).progress = some (min 100 (jsRoundDiv (ms * 100) 60000)) := by
  have h3 := out_key_not_end_key line h1
  simp [handleLine, h1, h3, progressFromMs]
  exact ⟨ms, by simpa using h2, rfl⟩

/-- C2 witness: the spec's worked example `out_time_ms=30000000` stores 100. -/
theorem c2_witness :
    isPrefixOfCL OUT_TIME_KEY lineOutTime30M = true ∧
    jsParseInt ((splitChar '=' lineOutTime30M).getD 1 []) = some 30000000 ∧
    (handleLine sampleJob lineOutTime30M).progress = some 100 :=
  ⟨by decide, by decide,
    (c2_estimator_formula sampleJob lineOutTime30M 30000000
      (by decide) (by decide)).trans (by decide)⟩

/-! ### Claim C5 -/

/-- C5 counterexample: the progress line `out_time_ms=-60000` stores the
estimate `-100`, which is outside the claimed range `[0, 100]` (the code
clamps from above with `Math.min(100, ...)` but never from below). -/
theorem c5_counterexample :
    (handleLine sampleJob lineOutTimeNeg).progress = some (-100) ∧
    (-100 : Int) < 0 := by decide

/-- C5 (amended): at every point in a job's lifetime the progress field,
when it is a number at all, is an integer at most 100 — for every sequence
of stderr chunks processed from a starting job whose numeric progress is at
most 100, the stored progress never exceeds 100.  It can however drop below
0 for a negative reported value, and becomes NaN for an unparseable one. -/
theorem c5_progress_upper_bound (j : Job) (chunks : List (List Char)) (v : Int)
    (h0 : ∀ w, j.progress = some w → w ≤ 100)
    (hv : (processChunks j chunks).progress = some v) : v ≤ 100 :=
  processChunks_progressAtMost100 j chunks h0 v hv

/-- C5 witness: processing the single chunk `out_time_ms=-60000` from a
fresh job yields progress `-100`, which is indeed at most 100. -/
theorem c5_witness :
    (processChunks sampleJob [lineOutTimeNeg]).progress = some (-100) ∧
    (-100 : Int) ≤ 100 :=
  ⟨by decide,
    c5_progress_upper_bound sampleJob [lineOutTimeNeg] (-100)
      (by intro w hw; simp [sampleJob] at hw; omega) (by decide)⟩

/-! ### Claim C4 -/

/-- C4: for every job id present in the registry (with the invariant that a
numeric progress value never exceeds 100, which every mutation of the code
preserves), the progress endpoint reports `ready = true` iff the job's
progress equals 100, its done flag is true, and its output file exists on
disk at query time. -/
theorem c4_ready_iff (st : ServerState) (id : String) (job : Job)
    (hj : lookupJob st.jobs id = some job)
    (hb : ∀ v, job.progress = some v → v ≤ 100) :
    apiProgress st id = .ok job.progress true ↔
      (job.progress = some 100 ∧ job.done = true ∧
        containsStr st.files job.path = true) := by
  simp only [apiProgress, hj]
  constructor
  · intro h
    have h' : (jsGe100 job.progress && job.done && containsStr st.files job.path)
        = true := (ProgressResult.ok.inj h).2
    rw [Bool.and_eq_true, Bool.and_eq_true] at h'
    obtain ⟨⟨hge, hdone⟩, hfile⟩ := h'
    cases hp : job.progress with
    | none => rw [hp] at hge; simp [jsGe100] at hge
    | some v =>
        rw [hp] at hge
        simp only [jsGe100, decide_eq_true_eq] at hge
        have hle := hb v hp
        have hv : v = 100 := le_antisymm hle hge
        subst hv
        exact ⟨rfl, hdone, hfile⟩
  · rintro ⟨h1, h2, h3⟩
    rw [h1, h2, h3]
    simp [jsGe100]

/-- C4 witness: a done job at 100 with its artifact on disk is ready. -/
theorem c4_witness :
    apiProgress readySt "j" = .ok readyJob.progress true ↔
      (readyJob.progress = some 100 ∧ readyJob.done = true ∧
        containsStr readySt.files readyJob.path = true) :=
  c4_ready_iff readySt "j" readyJob (by decide)
    (by intro v hv; simp [readyJob] at hv; omega)

/-! ### Claim C6 -/

/-- C6: on stream completion of a delivery — whether the transfer succeeded
or failed — the output file is deleted and the registry entry evicted, so a
second delivery request for the same job id returns NotReady (404). -/
theorem c6_delivery_single_use (st : ServerState) (id : String) (job : Job)
    (ok1 ok2 : Bool)
    (hj : lookupJob st.jobs id = some job)
    (hf : containsStr st.files job.path = true) :
    lookupJob (apiDownload st id ok1).2.jobs id = none ∧
    containsStr (apiDownload st id ok1).2.files job.path = false ∧
    (apiDownload (apiDownload st id ok1).2 id ok2).1 = .notReady := by
  have e1 : (apiDownload st id ok1).2 =
      { st with files := removeFile st.files job.path,
                jobs := eraseKey st.jobs id } := by
    simp [apiDownload, hj, hf]
  rw [e1]
  refine ⟨lookupJob_eraseKey _ _, containsStr_removeFile_self _ _, ?_⟩
  simp [apiDownload, lookupJob_eraseKey]

/-- C6 witness: a ready job delivered once (successfully) is gone from the
registry and disk, and a second request is refused. -/
theorem c6_witness :
    lookupJob (apiDownload readySt "j" true).2.jobs "j" = none ∧
    containsStr (apiDownload readySt "j" true).2.files readyJob.path = false ∧
    (apiDownload (apiDownload readySt "j" true).2 "j" false).1 = .notReady :=
  c6_delivery_single_use readySt "j" readyJob true false (by decide) (by decide)

/-! ### Claim C7 -/

/-- C7: for every job whose registry entry is still present, exit of the
transcoding process — the callback receives no exit condition, so this is
unconditional — sets progress to 100 and done to true, and deletes the
job's intermediate input file. -/
theorem c7_exit_forces_completion (st : ServerState) (jobId tmp : String)
    (job : Job) (hj : lookupJob st.jobs jobId = some job) :
    lookupJob (ffmpegOnExit st jobId tmp).jobs jobId =
      some { job with progress := some 100, done := true } ∧
    containsStr (ffmpegOnExit st jobId tmp).files tmp = false := by
  constructor
  · simp [ffmpegOnExit, hj, lookupJob_updateJob]
  · simp [ffmpegOnExit, hj, containsStr_removeFile_self]

/-- C7 witness: process exit on the sample ready job marks it 100/done and
removes its intermediate file. -/
theorem c7_witness :
    lookupJob (ffmpegOnExit readySt "j" "tmpIn").jobs "j" =
      some { readyJob with progress := some 100, done := true } ∧
    containsStr (ffmpegOnExit readySt "j" "tmpIn").files "tmpIn" = false :=
  c7_exit_forces_completion readySt "j" "tmpIn" readyJob (by decide)

/-! ### Claim C8 -/

/-- C8: for every (format, type) pair whose format, after alias resolution,
is not in the allow-list for that type, job creation fails with
InvalidFormat (400) and the state is unchanged — no registry entry, no temp
file, no timer. -/
theorem c8_invalid_format_rejected (st : ServerState) (req : StartRequest)
    (jobId : String) (fetchOk : Bool)
    (h : containsStr (formatListFor req.type) (formatAliasResolve req.format)
      = false) :
    convertStart st req jobId fetchOk = (.invalidFormat, st) := by
  simp [convertStart, h]

/-- C8 witness: requesting the audio format ogg is rejected with the state
untouched. -/
theorem c8_witness :
    convertStart st0 reqBad "j8" true = (.invalidFormat, st0) :=
  c8_invalid_format_rejected st0 reqBad "j8" true (by decide)

/-! ### Claim C1 -/

/-- C1 counterexample: for a valid request whose fetch fails, the handler
answers 500 but the registry still contains the entry for that job id — the
entry is created at line 131 of server.js, before the `try` block that runs
the fetch, and the catch clause never removes it.  (The variant server in
part_000 behaves the same way: entry at line 103, catch at line 160.) -/
theorem c1_counterexample :
    (convertStart st0 req1 "job1" false).1 = .fetchFailed ∧
    (lookupJob (convertStart st0 req1 "job1" false).2.jobs "job1").isSome
      = true := by decide

/-- C1 (amended): for every valid request whose fetch fails, the handler
returns the 500 FetchFailed response, but the registry entry created before
the fetch remains, with progress 0 and done false — so the job does appear
in the registry as a progressing job — and no file is created or cleaned up
at failure time (reclamation happens only when the expiry timer fires). -/
theorem c1_fetch_failure_keeps_entry (st : ServerState) (req : StartRequest)
    (jobId : String)
    (hv : containsStr (formatListFor req.type) (formatAliasResolve req.format)
      = true) :
    (convertStart st req jobId false).1 = .fetchFailed ∧
    (lookupJob (convertStart st req jobId false).2.jobs jobId).map Job.progress
      = some (some 0) ∧
    (lookupJob (convertStart st req jobId false).2.jobs jobId).map Job.done
      = some false ∧
    (convertStart st req jobId false).2.files = st.files := by
  refine ⟨?_, ?_, ?_, ?_⟩ <;> simp [convertStart, hv, lookupJob]

/-- C1 witness: instantiation of the amended claim at a concrete request. -/
theorem c1_witness :
    (convertStart st0 req1 "job1" false).1 = .fetchFailed ∧
    (lookupJob (convertStart st0 req1 "job1" false).2.jobs "job1").map
      Job.progress = some (some 0) ∧
    (lookupJob (convertStart st0 req1 "job1" false).2.jobs "job1").map
      Job.done = some false ∧
    (convertStart st0 req1 "job1" false).2.files = st0.files :=
  c1_fetch_failure_keeps_entry st0 req1 "job1" (by decide)

/-! ### Claim C3 -/

/-- C3 counterexample: in the variant server (src/unnamed/part_000) the
`setTimeout` cleanup sits inside the `try` block after the fetch, so for a
job whose fetch fails no expiry timer is ever armed, while its registry
entry (created before the `try`) persists — contradicting the claim that a
timer is armed at creation for every job, including one whose fetch fails. -/
theorem c3_counterexample :
    (convertStartV2 st0 req1 "job1" false).2.timers = [] ∧
    (lookupJob (convertStartV2 st0 req1 "job1" false).2.jobs "job1").isSome
      = true := by decide

/-- C3 (amended): in server.js the expiry timer is armed at creation,
before the fetch, hence also for a job whose fetch subsequently fails; and
whenever an armed timer fires, the output artifact and the intermediate
file are deleted if present and the registry entry is evicted, regardless
of the job's progress/done state.  In the variant server (part_000),
however, the timer is armed only after a successful fetch, so a job whose
fetch fails never gets a timer and its registry entry is never reclaimed. -/
theorem c3_sweeper_reclaims (st : ServerState) (req : StartRequest)
    (jobId : String) (fetchOk : Bool) (st2 : ServerState) (t2 : TimerInfo)
    (hv : containsStr (formatListFor req.type) (formatAliasResolve req.format)
      = true) :
    (convertStart st req jobId fetchOk).2.timers =
      ({ jobId := jobId,
         outFile := pathJoin DIRNAME ("temp_" ++ jobId ++ "." ++
           (if req.type = "audio" then formatAliasResolve req.format else "mp4")),
         tempInput := pathJoin DIRNAME ("temp_" ++ jobId ++ "_input.mkv")
         : TimerInfo }) :: st.timers ∧
    lookupJob (fireTimer st2 t2).jobs t2.jobId = none ∧
    containsStr (fireTimer st2 t2).files t2.outFile = false ∧
    containsStr (fireTimer st2 t2).files t2.tempInput = false := by
  refine ⟨?_, ?_, ?_, ?_⟩
  · cases fetchOk <;> simp [convertStart, hv]
  · simp [fireTimer, lookupJob_eraseKey]
  · simp only [fireTimer]
    exact containsStr_removeFile_removeFile _ _ _
  · simp only [fireTimer]
    exact containsStr_removeFile_self _ _

/-- C3 witness: the timer is armed even for the failed-fetch job `job1`
(server.js), and firing a timer over a populated state reclaims everything. -/
theorem c3_witness :
    (convertStart st0 req1 "job1" false).2.timers =
      ({ jobId := "job1",
         outFile := pathJoin DIRNAME ("temp_" ++ "job1" ++ "." ++
           (if req1.type = "audio" then formatAliasResolve req1.format else "mp4")),
         tempInput := pathJoin DIRNAME ("temp_" ++ "job1" ++ "_input.mkv")
         : TimerInfo }) :: st0.timers ∧
    lookupJob (fireTimer readySt t2sample).jobs "j" = none ∧
    containsStr (fireTimer readySt t2sample).files "out" = false ∧
    containsStr (fireTimer readySt t2sample).files "tmpIn" = false :=
  c3_sweeper_reclaims st0 req1 "job1" false readySt t2sample (by decide)

/-! ### Claim C9 -/

/-- C9 counterexample: the content id `a!!b` yields the stored display name
`yt_a__b.mp3`, and the delivery handler serves it under the file name
`yt_a__b_mp3.mp3`, which contains two adjacent separator characters — runs
of non-alphanumeric characters are not collapsed to a single separator. -/
theorem c9_counterexample :
    (apiDownload stC9 "j9" true).1 = .delivered "yt_a__b_mp3.mp3" ∧
    hasAdjacentUnderscore "yt_a__b_mp3.mp3".data = true := by decide

/-- C9 (amended): the sanitizer replaces every non-alphanumeric character
individually by one underscore and case-folds the rest — it is a
per-character map, hence append-homomorphic and length-preserving, so a run
of k non-alphanumeric characters becomes k adjacent separators rather than
one. -/
theorem c9_sanitizer_per_character (s t : String) :
    jsSanitize (s ++ t) = jsSanitize s ++ jsSanitize t ∧
    (jsSanitize s).length = s.length := by
  obtain ⟨ls⟩ := s
  obtain ⟨lt⟩ := t
  constructor
  · show String.mk ((ls ++ lt).map sanitizeChar) =
      String.mk (ls.map sanitizeChar) ++ String.mk (lt.map sanitizeChar)
    exact congrArg String.mk (List.map_append sanitizeChar ls lt)
  · show (String.mk (ls.map sanitizeChar)).length = (String.mk ls).length
    simp [String.length]

/-! ### Claim C10 -/

/-- C10: a job created with type video always gets stored extension mp4, an
output path ending in mp4, and an ffmpeg invocation whose `-f` container
argument is mp4 — even when the validated requested format is mkv or webm —
while an audio job receives the requested format as its extension and
container. -/
theorem c10_video_always_mp4 (st : ServerState) (req : StartRequest)
    (jobId : String) (fetchOk : Bool)
    (hv : containsStr (formatListFor req.type) (formatAliasResolve req.format)
      = true) :
    (req.type = "video" →
      ((lookupJob (convertStart st req jobId fetchOk).2.jobs jobId).map Job.ext
        = some "mp4" ∧
       (lookupJob (convertStart st req jobId fetchOk).2.jobs jobId).map Job.path
        = some (pathJoin DIRNAME ("temp_" ++ jobId ++ "." ++ "mp4")) ∧
       (ffmpegArgs req.type (formatAliasResolve req.format)
          (pathJoin DIRNAME ("temp_" ++ jobId ++ "_input.mkv"))
          (pathJoin DIRNAME ("temp_" ++ jobId ++ "." ++ "mp4"))).getD 3 ""
        = "mp4")) ∧
    (req.type = "audio" →
      ((lookupJob (convertStart st req jobId fetchOk).2.jobs jobId).map Job.ext
        = some (formatAliasResolve req.format) ∧
       (ffmpegArgs req.type (formatAliasResolve req.format)
          (pathJoin DIRNAME ("temp_" ++ jobId ++ "_input.mkv"))
          (pathJoin DIRNAME
            ("temp_" ++ jobId ++ "." ++ formatAliasResolve req.format))).getD 3 ""
        = formatAliasResolve req.format)) := by
  constructor
  · intro hty
    have hne : ¬ req.type = "audio" := by rw [hty]; decide
    refine ⟨?_, ?_, ?_⟩
    · cases fetchOk <;> simp [convertStart, hv, hne, lookupJob]
    · cases fetchOk <;> simp [convertStart, hv, hne, lookupJob]
    · simp [ffmpegArgs, hne]
  · intro hty
    rw [hty] at hv
    refine ⟨?_, ?_⟩
    · cases fetchOk <;> simp [convertStart, hv, hty, lookupJob]
    · simp [ffmpegArgs, hty]

/-- C10 witness: the video request for mkv is stored and transcoded as mp4. -/
theorem c10_witness :
    (lookupJob (convertStart st0 reqMkv "j10" true).2.jobs "j10").map Job.ext
      = some "mp4" ∧
    (lookupJob (convertStart st0 reqMkv "j10" true).2.jobs "j10").map Job.path
      = some (pathJoin DIRNAME ("temp_" ++ "j10" ++ "." ++ "mp4")) ∧
    (ffmpegArgs reqMkv.type (formatAliasResolve reqMkv.format)
       (pathJoin DIRNAME ("temp_" ++ "j10" ++ "_input.mkv"))
       (pathJoin DIRNAME ("temp_" ++ "j10" ++ "." ++ "mp4"))).getD 3 "" = "mp4" :=
  (c10_video_always_mp4 st0 reqMkv "j10" true (by decide)).1 (by decide)

end Backend
